import Mathlib

/-!
Verification of the ordolux email/PDF conversion service against its
natural-language specification.

The repository converts Outlook `.msg` containers (and minimal `.eml`
input) to a canonical JSON shape.  The decision-making code lives in
`src/msg_to_json.py` (full JSON converter), `src/py/parse_msg.py`
(PDF-only filtering converter) and `src/py/msg_to_eml.py` (EML builder).
This file shallowly embeds those Python functions over an explicit model
of Python values and attribute objects, and proves or refutes the frozen
claims about them.
-/

namespace MsgSpec

/-- Model of a Python date/time value as produced by the external
`.msg` parsing library.  `tzOffsetMinutes` is `some o` for a
timezone-aware value with a fixed UTC offset of `o` minutes, and `none`
for a timezone-naive value. -/
structure PyDateTime where
  year : Nat
  month : Nat
  day : Nat
  hour : Nat
  minute : Nat
  second : Nat
  microsecond : Nat
  tzOffsetMinutes : Option Int

/-- Model of the Python runtime values the converters handle: `None`,
strings, byte strings (as lists of byte values), booleans, integers,
lists, date/time objects and callables.  A callable carries the value a
call would return and a flag saying whether the call succeeds
(`ok = true`) or raises (`ok = false`). -/
inductive PyVal where
  | none
  | str (s : String)
  | bytes (b : List Nat)
  | pybool (b : Bool)
  | int (n : Int)
  | list (xs : List PyVal)
  | datetime (d : PyDateTime)
  | pydate (y m d : Nat)
  | callable (ok : Bool) (v : PyVal)

/-- Python truthiness (`bool(v)`): `None`, empty strings, empty byte
strings, zero and empty lists are falsy; date, datetime and callable
objects are truthy. -/
def PyVal.truthy : PyVal → Bool
  | .none => false
  | .str s => !s.isEmpty
  | .bytes b => !b.isEmpty
  | .pybool b => b
  | .int n => n != 0
  | .list xs => !xs.isEmpty
  | .datetime _ => true
  | .pydate _ _ _ => true
  | .callable _ _ => true

/-- Is the value Python `None`? -/
def PyVal.isNoneV : PyVal → Bool
  | .none => true
  | _ => false

/-- Python short-circuit `a or b`: yields `a` when `a` is truthy,
otherwise `b`. -/
def pyOr (a b : PyVal) : PyVal := if a.truthy then a else b

/-- A named attribute of a Python object: either a plain stored value
(possibly callable), or a property whose getter raises on access. -/
inductive PyAttr where
  | val (v : PyVal)
  | raising

/-- Model of a Python object as an association list of named attributes.
Attribute names are unique in practice; lookup takes the first match. -/
def PyObj := List (String × PyAttr)

/-- Look up the attribute slot stored under name `n`. -/
def lookupAttr (o : PyObj) (n : String) : Option PyAttr :=
  match o with
  | [] => Option.none
  | (m, a) :: rest => if m = n then some a else lookupAttr rest n

/-- Python `hasattr(o, n)`: true when the attribute exists and its
access does not raise (for a raising property, `hasattr` is false
because `hasattr` swallows the getter's exception). -/
def pyHasattr (o : PyObj) (n : String) : Bool :=
  match lookupAttr o n with
  | some (.val _) => true
  | _ => false

/-- Guarded Python `getattr(o, n)`: raises (error) when the attribute is
absent or its property getter raises. -/
def pyGetattr (o : PyObj) (n : String) : Except Unit PyVal :=
  match lookupAttr o n with
  | some (.val v) => .ok v
  | some .raising => .error ()
  | Option.none => .error ()

/-- Python `getattr(o, n, d)` with a default: absent attribute yields
the default; a raising property getter still raises. -/
def pyGetattrD (o : PyObj) (n : String) (d : PyVal) : Except Unit PyVal :=
  match lookupAttr o n with
  | some (.val v) => .ok v
  | some .raising => .error ()
  | Option.none => .ok d

/-- Embedding of `_first_attr(obj, names)` from `src/msg_to_json.py`:
for each candidate name, when `hasattr` holds, the attribute is
retrieved and returned (callables are called; a raising call moves on to
the next candidate).  The first retrieved value is returned even when it
is `None` or empty; `None` is returned when every candidate is absent or
raises when called. -/
def first_attr (o : PyObj) : List String → PyVal
  | [] => .none
  | n :: rest =>
    if pyHasattr o n then
      match lookupAttr o n with
      | some (.val (.callable ok v)) => if ok then v else first_attr o rest
      | some (.val v) => v
      | _ => first_attr o rest
    else first_attr o rest

/-- Embedding of `_try_attrs(obj, names)` from `src/py/msg_to_eml.py`:
each candidate is fetched inside a try block (absent attributes and
raising getters/calls are skipped), callables are called, and the first
truthy result is returned; `None` otherwise. -/
def try_attrs (o : PyObj) : List String → PyVal
  | [] => .none
  | n :: rest =>
    match lookupAttr o n with
    | Option.none => try_attrs o rest
    | some .raising => try_attrs o rest
    | some (.val (.callable ok v)) =>
      if ok then (if v.truthy then v else try_attrs o rest)
      else try_attrs o rest
    | some (.val v) => if v.truthy then v else try_attrs o rest

/-- Evaluation of one candidate field as the specification words it:
when the object carries the named field as a direct property or a
zero-argument retrievable operation, the evaluated value; otherwise
nothing. -/
def specEval (o : PyObj) (n : String) : Option PyVal :=
  match lookupAttr o n with
  | some (.val (.callable ok v)) => if ok then some v else Option.none
  | some (.val v) => some v
  | _ => Option.none

/-- Field Resolver as worded by the specification (section 4.1): try the
candidates in order and return the first evaluated result that is
non-null and not empty; null when no candidate yields a usable value. -/
def resolveSpec (o : PyObj) : List String → PyVal
  | [] => .none
  | n :: rest =>
    match specEval o n with
    | some v => if v.truthy then v else resolveSpec o rest
    | Option.none => resolveSpec o rest

example : first_attr [("a", .val .none), ("b", .val (.str "x"))] ["a", "b"] = PyVal.none := rfl
example : try_attrs [("a", .val .none), ("b", .val (.str "x"))] ["a", "b"] = PyVal.str "x" := rfl
example : resolveSpec [("a", .val .none), ("b", .val (.str "x"))] ["a", "b"] = PyVal.str "x" := rfl

/-! Value coercion helpers of `src/msg_to_json.py`. -/

/-- Left-pad a decimal rendering with zeroes to width 2. -/
def pad2 (n : Nat) : String := if n < 10 then "0" ++ toString n else toString n

/-- Left-pad a decimal rendering with zeroes to width 4. -/
def pad4 (n : Nat) : String :=
  if n < 10 then "000" ++ toString n
  else if n < 100 then "00" ++ toString n
  else if n < 1000 then "0" ++ toString n
  else toString n

/-- Left-pad a decimal rendering with zeroes to width 6. -/
def pad6 (n : Nat) : String :=
  if n < 100000 then "0" ++ pad4 (n % 100000) ++ pad2 0 else toString n

/-- Render a fixed UTC offset in minutes the way `datetime.isoformat`
does, e.g. `+00:00` or `-05:30`. -/
def offsetText (off : Int) : String :=
  (if off < 0 then "-" else "+") ++ pad2 (off.natAbs / 60) ++ ":" ++ pad2 (off.natAbs % 60)

/-- `datetime.isoformat()` with a configurable date/time separator: the
microsecond part is included only when non-zero, and the UTC offset only
when the value is timezone-aware. -/
def PyDateTime.isoformatSep (d : PyDateTime) (sep : String) : String :=
  pad4 d.year ++ "-" ++ pad2 d.month ++ "-" ++ pad2 d.day ++ sep ++
  pad2 d.hour ++ ":" ++ pad2 d.minute ++ ":" ++ pad2 d.second ++
  (if d.microsecond = 0 then "" else "." ++ pad6 d.microsecond) ++
  (match d.tzOffsetMinutes with
   | some off => offsetText off
   | Option.none => "")

/-- `datetime.isoformat()` with the standard `T` separator. -/
def PyDateTime.isoformat (d : PyDateTime) : String := d.isoformatSep "T"

/-- Embedding of `_as_iso8601(dt)` from `src/msg_to_json.py`: date and
datetime values yield `isoformat()` unchanged (the timezone is rendered
exactly when the value carries one), strings pass through, and anything
else (including `None`) coerces to `None`. -/
def as_iso8601 : PyVal → Option String
  | .datetime d => some d.isoformat
  | .pydate y m dd => some (pad4 y ++ "-" ++ pad2 m ++ "-" ++ pad2 dd)
  | .str s => some s
  | _ => Option.none

/-- Decode one UTF-8 byte sequence to characters, substituting an
invalid or truncated sequence's leading byte with U+FFFD and resuming,
approximating the `errors="replace"` policy of the standard codec (an
external collaborator); exact on valid UTF-8 input. -/
def utf8Chars : List Nat → List Char
  | [] => []
  | b :: rest =>
    if b < 128 then Char.ofNat b :: utf8Chars rest
    else if 192 ≤ b ∧ b < 224 then
      match rest with
      | b2 :: r2 =>
        if 128 ≤ b2 ∧ b2 < 192 then
          Char.ofNat ((b - 192) * 64 + (b2 - 128)) :: utf8Chars r2
        else '�' :: utf8Chars (b2 :: r2)
      | [] => ['�']
    else if 224 ≤ b ∧ b < 240 then
      match rest with
      | b2 :: b3 :: r3 =>
        if (128 ≤ b2 ∧ b2 < 192) ∧ (128 ≤ b3 ∧ b3 < 192) then
          let cp := (b - 224) * 4096 + (b2 - 128) * 64 + (b3 - 128)
          (if cp < 55296 ∨ 57344 ≤ cp then Char.ofNat cp else '�') :: utf8Chars r3
        else '�' :: utf8Chars (b2 :: b3 :: r3)
      | [b2] => '�' :: utf8Chars [b2]
      | [] => ['�']
    else if 240 ≤ b ∧ b < 248 then
      match rest with
      | b2 :: b3 :: b4 :: r4 =>
        if (128 ≤ b2 ∧ b2 < 192) ∧ (128 ≤ b3 ∧ b3 < 192) ∧ (128 ≤ b4 ∧ b4 < 192) then
          let cp := (b - 240) * 262144 + (b2 - 128) * 4096 + (b3 - 128) * 64 + (b4 - 128)
          (if cp < 1114112 then Char.ofNat cp else '�') :: utf8Chars r4
        else '�' :: utf8Chars (b2 :: b3 :: b4 :: r4)
      | [b2, b3] => '�' :: utf8Chars [b2, b3]
      | [b2] => '�' :: utf8Chars [b2]
      | [] => ['�']
    else '�' :: utf8Chars rest
termination_by l => l.length
decreasing_by all_goals simp <;> omega

/-- Python `b.decode("utf-8", errors="replace")`. -/
def utf8DecodeReplace (b : List Nat) : String := String.mk (utf8Chars b)

/-- Encode a string to UTF-8 bytes (Python `s.encode("utf-8")`). -/
def strToUtf8 (s : String) : List Nat := (String.toUTF8 s).toList.map (fun b => b.toNat)

/-- Python `str(x)` restricted to the value shapes the model carries.
The renderings of composite and exotic values are display-only details
of the external runtime; the claims never depend on them. -/
def pyToString : PyVal → String
  | .none => "None"
  | .str s => s
  | .bytes b => "b" ++ utf8DecodeReplace b
  | .pybool b => if b then "True" else "False"
  | .int n => toString n
  | .list xs => toString xs.length
  | .datetime d => d.isoformatSep " "
  | .pydate y m dd => pad4 y ++ "-" ++ pad2 m ++ "-" ++ pad2 dd
  | .callable _ _ => "callable"

/-- Embedding of `_ensure_str(x)` from `src/msg_to_json.py`: `None`
stays `None`, byte strings are decoded as UTF-8 with replacement (which
never raises, so the latin-1 fallback is unreachable), everything else
becomes its `str()` form. -/
def ensure_str : PyVal → Option String
  | .none => Option.none
  | .bytes b => some (utf8DecodeReplace b)
  | v => some (pyToString v)

/-- Embedding of `_coerce_recipients(val)` from `src/msg_to_json.py`:
`None` stays `None`; list-like values are stringified elementwise,
empties are filtered out, and the rest joined with a comma-space
separator (`None` when nothing remains); scalars fall back to
`_ensure_str`. -/
def coerce_recipients : PyVal → Option String
  | .none => Option.none
  | .list xs =>
    let parts := xs.filterMap (fun item =>
      match ensure_str item with
      | some s => if s.isEmpty then Option.none else some s
      | Option.none => Option.none)
    if parts.isEmpty then Option.none else some (String.intercalate ", " parts)
  | v => ensure_str v

/-! Base64 and content-type guessing used by the attachment paths. -/

/-- The base64 alphabet. -/
def b64Alphabet : List Char :=
  "ABCDEFGHIJKLMNOPQRSTUVWXYZabcdefghijklmnopqrstuvwxyz0123456789+/".data

/-- Character for one 6-bit group. -/
def b64Char (n : Nat) : Char := b64Alphabet.getD n 'A'

/-- Standard base64 encoding of a byte list with `=` padding
(`base64.b64encode`). -/
def b64encodeChars : List Nat → List Char
  | [] => []
  | [a] => [b64Char (a / 4), b64Char (a % 4 * 16), '=', '=']
  | [a, b] => [b64Char (a / 4), b64Char (a % 4 * 16 + b / 16), b64Char (b % 16 * 4), '=']
  | a :: b :: c :: rest =>
    b64Char (a / 4) :: b64Char (a % 4 * 16 + b / 16) ::
    b64Char (b % 16 * 4 + c / 64) :: b64Char (c % 64) :: b64encodeChars rest

/-- Base64 encoding as a string. -/
def b64encode (b : List Nat) : String := String.mk (b64encodeChars b)

/-- `base64.b64encode(x)` raises unless `x` is a bytes-like value. -/
def pyB64 : PyVal → Except Unit String
  | .bytes b => .ok (b64encode b)
  | _ => .error ()

example : b64encode [77, 97, 110] = "TWFu" := rfl
example : b64encode [77, 97] = "TWE=" := rfl
example : b64encode [77] = "TQ==" := rfl

/-- ASCII lowercasing of one character (Python `str.lower` restricted to
ASCII, which is all the converters compare). -/
def asciiLower (c : Char) : Char :=
  if 65 ≤ c.toNat ∧ c.toNat ≤ 90 then Char.ofNat (c.toNat + 32) else c

/-- ASCII lowercasing of a string. -/
def strLower (s : String) : String := String.mk (s.data.map asciiLower)

/-- Suffix test on strings (`str.endswith`). -/
def strEndsWith (s suffix_ : String) : Bool := suffix_.data.isSuffixOf s.data

example : strLower "Doc.PDF" = "doc.pdf" := rfl
example : strEndsWith "doc.pdf" ".pdf" = true := rfl
example : strEndsWith "doc.pdfx" ".pdf" = false := rfl

/-- Extension of a filename: the part after the last dot, when one
exists; lowercased. -/
def fileExt (s : String) : Option String :=
  let r := (strLower s).data.reverse
  if r.contains '.' then some (String.mk ((r.takeWhile (fun c => c ≠ '.')).reverse))
  else Option.none

/-- Representative slice of the fixed extension-to-MIME table consulted
by `mimetypes.guess_type` (an external collaborator; no claim depends on
entries beyond these). -/
def extMime : String → Option String
  | "pdf" => some "application/pdf"
  | "png" => some "image/png"
  | "jpg" => some "image/jpeg"
  | "jpeg" => some "image/jpeg"
  | "gif" => some "image/gif"
  | "txt" => some "text/plain"
  | "html" => some "text/html"
  | "htm" => some "text/html"
  | "csv" => some "text/csv"
  | "zip" => some "application/zip"
  | _ => Option.none

/-- `mimetypes.guess_type(x)[0]`: raises on a non-string argument,
otherwise looks the lowercased filename extension up in the fixed
table. -/
def pyGuessType : PyVal → Except Unit (Option String)
  | .str s =>
    .ok (match fileExt s with
         | some e => extMime e
         | Option.none => Option.none)
  | _ => .error ()

example : pyGuessType (.str "a.PDF") = .ok (some "application/pdf") := rfl
example : pyGuessType (.str "archive") = .ok Option.none := rfl

/-! Attachment classification of `src/msg_to_json.py` (`parse_msg`). -/

/-- Candidate names for an attachment's filename in `parse_msg`. -/
def jsonFnameNames : List String :=
  ["longFilename", "long_file_name", "longFilenameValue", "shortFilename", "filename"]

/-- Candidate names for an attachment's content identifier in `parse_msg`. -/
def jsonCidNames : List String := ["cid", "ContentId", "contentId", "content_id"]

/-- Candidate names for an attachment's inline flag in `parse_msg`. -/
def jsonInlineNames : List String := ["isInline", "is_inline", "IsInline"]

/-- Candidate names for an attachment's payload in `parse_msg`. -/
def jsonDataNames : List String := ["data", "data_binary", "binaryData"]

/-- One entry of the `attachments` array produced by `parse_msg`. -/
structure AttRec where
  filename : PyVal
  contentId : PyVal
  inline : Bool
  contentType : String
  size : Nat
  dataBase64 : Option String

/-- Payload resolution of `parse_msg`: `_first_attr` over the payload
synonyms, then the last-resort direct read of `.data` when that gave
`None` and the attribute exists, then encoding of a textual payload to
UTF-8 bytes. -/
def jsonDataResolve (a : PyObj) : PyVal :=
  let data0 := first_attr a jsonDataNames
  let data1 :=
    if data0.isNoneV ∧ pyHasattr a "data" then
      match lookupAttr a "data" with
      | some (.val v) => v
      | _ => PyVal.none
    else data0
  match data1 with
  | .str s => .bytes (strToUtf8 s)
  | v => v

/-- Embedding of one iteration of the attachment loop of `parse_msg`
(`src/msg_to_json.py` lines 99-126).  Raises exactly where the Python
body would: `base64.b64encode` on a truthy non-bytes payload, and
`mimetypes.guess_type` on a truthy non-string filename.  An attachment
without a resolvable payload is still appended, with a null
`dataBase64` and size 0. -/
def processAttachment (a : PyObj) : Except Unit AttRec :=
  let fname := first_attr a jsonFnameNames
  let cid := first_attr a jsonCidNames
  let inline := first_attr a jsonInlineNames
  let data := jsonDataResolve a
  match (if data.truthy then (pyB64 data).map some else .ok Option.none) with
  | .error e => .error e
  | .ok b64 =>
    match pyGuessType (pyOr fname (.str "")) with
    | .error e => .error e
    | .ok ctype =>
      .ok { filename := pyOr fname (.str "attachment")
            contentId := pyOr cid .none
            inline := if inline.isNoneV then false else inline.truthy
            contentType := ctype.getD "application/octet-stream"
            size := match data with
                    | .bytes b => if b.isEmpty then 0 else b.length
                    | _ => 0
            dataBase64 := b64 }

/-- The attachment loop of `parse_msg` with its surrounding lines 98 and
127-129: results are appended one by one inside a single try block, so
the first raising iteration aborts the loop, keeping what was already
appended, and the exception is swallowed. -/
def attachLoop : List PyObj → List AttRec → List AttRec
  | [], acc => acc.reverse
  | a :: rest, acc =>
    match processAttachment a with
    | .ok r => attachLoop rest (r :: acc)
    | .error _ => acc.reverse

/-- The source message as `parse_msg` sees it: an attribute object for
the header and body fields, plus the `attachments` attribute, whose
access may raise (`error`), be `None`, or yield a list of attachment
objects. -/
structure SrcMsg where
  obj : PyObj
  attachments : Except Unit (Option (List PyObj))

/-- Attachment extraction of `parse_msg`: `m.attachments or []` guarded
by the same try block as the loop, so a raising access leaves the
accumulated list empty. -/
def parseAttachments (m : SrcMsg) : List AttRec :=
  match m.attachments with
  | .error _ => []
  | .ok o => attachLoop (o.getD []) []

/-- Candidate names for the HTML body in `parse_msg`. -/
def jsonHtmlNames : List String := ["htmlBody", "HTMLBody", "html_body", "HtmlBody"]

/-- Candidate names for the plain-text body in `parse_msg`. -/
def jsonTextNames : List String := ["body", "Body", "plain_text", "plainText"]

/-- The JSON payload assembled by `parse_msg`. -/
structure JsonOut where
  hasHtml : Bool
  attachmentCount : Nat
  from_ : Option String
  to_ : Option String
  cc : Option String
  subject : Option String
  date : Option String
  bodyText : String
  bodyHtml : Option String
  textLength : Nat
  htmlLength : Nat
  attachments : List AttRec

/-- Embedding of `parse_msg(path)` from `src/msg_to_json.py` after the
external library produced the message object: field resolution through
`_first_attr`, body coercion (`or ""` / `or None`), value coercion of
the headers, and the attachment loop. -/
def parse_msg (m : SrcMsg) : JsonOut :=
  let subject := first_attr m.obj ["subject", "Subject"]
  let sentOn := first_attr m.obj ["date", "sentOn", "sent_on", "date_str"]
  let sender := first_attr m.obj ["sender", "Sender", "sender_email", "senderEmail", "from_"]
  let toVal := first_attr m.obj ["to", "To", "recipients"]
  let ccVal := first_attr m.obj ["cc", "CC", "carbon_copy", "carbonCopy"]
  let bodyText :=
    match ensure_str (first_attr m.obj jsonTextNames) with
    | some s => s
    | Option.none => ""
  let bodyHtml :=
    match ensure_str (first_attr m.obj jsonHtmlNames) with
    | some s => if s.isEmpty then Option.none else some s
    | Option.none => Option.none
  let atts := parseAttachments m
  { hasHtml := bodyHtml.isSome
    attachmentCount := atts.length
    from_ := ensure_str sender
    to_ := coerce_recipients toVal
    cc := coerce_recipients ccVal
    subject := ensure_str subject
    date := as_iso8601 sentOn
    bodyText := bodyText
    bodyHtml := bodyHtml
    textLength := bodyText.length
    htmlLength := match bodyHtml with
                  | some s => s.length
                  | Option.none => 0
    attachments := atts }

/-! PDF-only filtering converter, `src/py/parse_msg.py`. -/

/-- One entry of the filtered `attachments` array of `py/parse_msg.py`. -/
structure PdfRec where
  filename : String
  contentType : String
  dataBase64 : String

/-- Filename resolution of `py/parse_msg.py` line 27: a short-circuit
`or` chain of `getattr(..., None)` reads with final default
`"attachment"`. -/
def pdfName (a : PyObj) : Except Unit PyVal :=
  match pyGetattrD a "longFilename" .none with
  | .error e => .error e
  | .ok v1 =>
    if v1.truthy then .ok v1 else
    match pyGetattrD a "shortFilename" .none with
    | .error e => .error e
    | .ok v2 =>
      if v2.truthy then .ok v2 else
      match pyGetattrD a "filename" .none with
      | .error e => .error e
      | .ok v3 => .ok (if v3.truthy then v3 else .str "attachment")

/-- Python `x[:4] == b"%PDF"`: false for sliceable non-bytes values
(strings, lists compare unequal to bytes), raises for unsliceable
values. -/
def sliceEqPdfMagic : PyVal → Except Unit Bool
  | .bytes b => .ok (b.take 4 = [37, 80, 68, 70])
  | .str _ => .ok false
  | .list _ => .ok false
  | _ => .error ()

/-- Embedding of one iteration of the attachment loop of
`py/parse_msg.py` (lines 26-38): resolve the name, read `a.data`
directly (absence raises), skip payloads that are not truthy, then keep
the attachment only when the lowercased name ends in `.pdf` or the
payload starts with the `%PDF` magic bytes, encoding the payload with
base64 and stamping content type `application/pdf`.  `none` means the
iteration `continue`d. -/
def processPdfAtt (a : PyObj) : Except Unit (Option PdfRec) :=
  match pdfName a with
  | .error e => .error e
  | .ok name =>
    match pyGetattr a "data" with
    | .error e => .error e
    | .ok data =>
      if !data.truthy then .ok Option.none
      else
        match name with
        | .str s =>
          if strEndsWith (strLower s) ".pdf" then
            match data with
            | .bytes b => .ok (some ⟨s, "application/pdf", b64encode b⟩)
            | _ => .error ()
          else
            match sliceEqPdfMagic data with
            | .error e => .error e
            | .ok true =>
              match data with
              | .bytes b => .ok (some ⟨s, "application/pdf", b64encode b⟩)
              | _ => .error ()
            | .ok false => .ok Option.none
        | _ => .error ()

/-- The attachment loop of `py/parse_msg.py`: any raising iteration
propagates to the enclosing try of `main` (failing the whole
conversion); otherwise the kept records appear in source order. -/
def pdfLoop : List PyObj → Except Unit (List PdfRec)
  | [] => .ok []
  | a :: rest =>
    match processPdfAtt a with
    | .error e => .error e
    | .ok r =>
      match pdfLoop rest with
      | .error e => .error e
      | .ok rs => .ok (match r with
                       | some x => x :: rs
                       | Option.none => rs)

/-! The whole `main` of `src/py/parse_msg.py` (stdin to stdout), for the
error-handling claim about its output contract. -/

/-- Python `", ".join(x)`: joins a list of strings (raising on a
non-string element), joins the characters of a string, raises
otherwise. -/
def pyJoin : PyVal → Except Unit String
  | .list xs =>
    match xs.mapM (fun v => match v with
                            | PyVal.str s => Except.ok s
                            | _ => Except.error ()) with
    | .ok ss => .ok (String.intercalate ", " ss)
    | .error e => .error e
  | .str s => .ok (String.intercalate ", " (s.data.map (fun c => String.mk [c])))
  | _ => .error ()

/-- ASCII whitespace characters stripped by Python `str.strip()`. -/
def isPyWs (c : Char) : Bool :=
  c.toNat = 32 || c.toNat = 9 || c.toNat = 10 || c.toNat = 13 || c.toNat = 11 || c.toNat = 12

/-- Python `s.strip()` on a string value; raises on non-strings
(`.strip()` of an int has no such attribute). -/
def pyStrip : PyVal → Except Unit String
  | .str s => .ok (String.mk (((s.data.dropWhile isPyWs).reverse.dropWhile isPyWs).reverse))
  | _ => .error ()

mutual

/-- Whether `json.dumps` can serialize the value: `None`, strings,
booleans, integers and lists of serializable values; bytes, date/time
and callable objects make it raise. -/
def serializable : PyVal → Bool
  | .none => true
  | .str _ => true
  | .pybool _ => true
  | .int _ => true
  | .list xs => serializableList xs
  | _ => false

/-- Elementwise serializability of a list value. -/
def serializableList : List PyVal → Bool
  | [] => true
  | v :: rest => serializable v && serializableList rest

end

/-- The successful JSON payload of `py/parse_msg.py` `main`. -/
structure PdfOut where
  subject : PyVal
  from_ : PyVal
  to_ : String
  cc : String
  date : PyVal
  bodyText : String
  attachments : List PdfRec

/-- The message object as `py/parse_msg.py` sees it after
`extract_msg.Message` succeeded; each field read may raise. -/
structure PdfMsg where
  subject : Except Unit PyVal
  body : Except Unit PyVal
  date : Except Unit PyVal
  sender : Except Unit PyVal
  to_ : Except Unit PyVal
  cc : Except Unit PyVal
  attachments : Except Unit (List PyObj)

/-- Input to `py/parse_msg.py` `main`: either one of the stages before
field extraction raised (unparseable JSON on stdin, payload that is not
base64, bytes that `extract_msg` cannot open), or a parsed message
object. -/
inductive PdfInput where
  | earlyFail
  | parsed (m : PdfMsg)

/-- The body of the try block of `py/parse_msg.py` `main` after parsing:
field coercions (`or ""`, `strip`, `join`), the PDF-filtering attachment
loop, and the final `json.dumps`, any of which may raise. -/
def pdfRun (m : PdfMsg) : Except Unit PdfOut :=
  match m.subject with
  | .error e => .error e
  | .ok subj0 =>
    let subj := pyOr subj0 (.str "")
    match m.body with
    | .error e => .error e
    | .ok body0 =>
      match pyStrip (pyOr body0 (.str "")) with
      | .error e => .error e
      | .ok bodyS =>
        match m.date with
        | .error e => .error e
        | .ok date0 =>
          let dt := pyOr date0 (.str "")
          match m.sender with
          | .error e => .error e
          | .ok sender0 =>
            let frm := pyOr sender0 (.str "")
            match m.to_ with
            | .error e => .error e
            | .ok to0 =>
              match pyJoin (pyOr to0 (.list [])) with
              | .error e => .error e
              | .ok toS =>
                match m.cc with
                | .error e => .error e
                | .ok cc0 =>
                  match pyJoin (pyOr cc0 (.list [])) with
                  | .error e => .error e
                  | .ok ccS =>
                    match m.attachments with
                    | .error e => .error e
                    | .ok atts =>
                      match pdfLoop atts with
                      | .error e => .error e
                      | .ok recs =>
                        if serializable subj ∧ serializable frm ∧ serializable dt then
                          .ok ⟨subj, frm, toS, ccS, dt, bodyS, recs⟩
                        else .error ()

/-- One JSON object written to stdout by `py/parse_msg.py`: the success
payload carries `ok: true`, the failure object `ok: false` with an error
text. -/
inductive JObj where
  | success (p : PdfOut)
  | failure

/-- The boolean `ok` field of an output object. -/
def JObj.okField : JObj → Bool
  | .success _ => true
  | .failure => false

/-- Observable outcome of one run of `py/parse_msg.py` `main`: the JSON
objects printed to stdout and the process exit status. -/
structure MainResult where
  stdout : List JObj
  exitCode : Nat

/-- Embedding of `main()` of `src/py/parse_msg.py`: everything runs
inside one try block whose except clause prints `ok: false`; no path
calls `sys.exit`, so the exit status is 0 in both cases. -/
def pdfMain : PdfInput → MainResult
  | .earlyFail => ⟨[.failure], 0⟩
  | .parsed m =>
    match pdfRun m with
    | .ok p => ⟨[.success p], 0⟩
    | .error _ => ⟨[.failure], 0⟩

/-! Body resolution and attachment handling of `src/py/msg_to_eml.py`. -/

/-- Embedding of `_safe_str(val)` from `src/py/msg_to_eml.py`: `None`
becomes the empty string, bytes are decoded (UTF-8 with replacement
never raises, so the first decoder in the chain always wins), everything
else is its `str()` form. -/
def safe_str : PyVal → String
  | .none => ""
  | .bytes b => utf8DecodeReplace b
  | v => pyToString v

/-- Latin-1 encoding with replacement (Python
`s.encode("latin-1", errors="replace")`): characters above U+00FF become
`?`. -/
def latin1Encode (s : String) : List Nat :=
  s.data.map (fun c => if c.toNat ≤ 255 then c.toNat else 63)

/-- Candidate names tried for the HTML body in `_manual_build_eml`. -/
def emlHtmlNames : List String := ["htmlBody", "html", "bodyHTML", "bodyHtml"]

/-- Candidate names tried for the plain-text body in `_manual_build_eml`. -/
def emlPlainNames : List String := ["plainText", "body", "text", "body_text"]

/-- Candidate names tried for the rich-text body in `_manual_build_eml`. -/
def emlRtfNames : List String := ["rtfBody", "bodyRTF", "rtf"]

/-- The value handed to `_rtf_to_text` by `_manual_build_eml`: the
resolved rich-text body, with a textual value first encoded to
latin-1 bytes. -/
def rtfArg (m : PyObj) : PyVal :=
  match try_attrs m emlRtfNames with
  | .str s => .bytes (latin1Encode s)
  | v => v

/-- Embedding of the body-selection part of `_manual_build_eml`
(`src/py/msg_to_eml.py` lines 70-84), parameterized by the rich-text
derivation `rtfToText` (the decompression library and the regex cleanup
of `_rtf_to_text` are external collaborators whose output the claims
treat as opaque): the HTML body wins when truthy, else the plain-text
body, else the rich-text derivation; `set_content` always receives a
string. -/
def emlBody (rtfToText : PyVal → String) (m : PyObj) : Option String × String :=
  let html0 := try_attrs m emlHtmlNames
  let html := if html0.truthy then some (safe_str html0) else Option.none
  let textS :=
    if html.isSome then Option.none
    else
      let t := try_attrs m emlPlainNames
      if t.truthy then some (safe_str t) else Option.none
  let goRtf := html.isNone && (match textS with
                               | some s => s.isEmpty
                               | Option.none => true)
  let text2 := if goRtf then some (rtfToText (rtfArg m)) else textS
  (html, match text2 with
         | some s => s
         | Option.none => "")

/-- One attachment as `_manual_build_eml` sees it: the attribute object
plus the bytes the `a.save` temp-file fallback would produce (`none`
when saving raises or yields nothing); the save path goes through the
filesystem, an external collaborator. -/
structure EmlAtt where
  obj : PyObj
  saveBytes : Option (List Nat)

/-- One attachment part added to the outgoing email message. -/
structure EmlRec where
  data : List Nat
  filename : String
  maintype : String
  subtype : String
  cid : Option String

/-- Python `s.partition("/")` adapted to the content-type split of
`_manual_build_eml` lines 104-105: the declared type must be a string
(`.partition` raises otherwise), and a missing subtype falls back to
`application/octet-stream`. -/
def splitContentType : PyVal → Except Unit (String × String)
  | .str s =>
    let pre := s.data.takeWhile (fun c => c ≠ '/')
    if pre.length = s.data.length then .ok ("application", "octet-stream")
    else
      let su := (s.data.drop (pre.length + 1))
      if su.isEmpty then .ok ("application", "octet-stream")
      else .ok (String.mk pre, String.mk su)
  | _ => .error ()

/-- Payload resolution of `_manual_build_eml` lines 91-99: `_try_attrs`
over the payload synonyms, then the temp-file save fallback when that
was falsy. -/
def emlDataResolve (a : EmlAtt) : PyVal :=
  let d := try_attrs a.obj ["data", "data_raw", "payload", "getData"]
  if d.truthy then d
  else
    match a.saveBytes with
    | some b => .bytes b
    | Option.none => .none

/-- Embedding of one iteration of the attachment loop of
`_manual_build_eml` (lines 90-111): falsy payloads are skipped
(`continue`), the content-type split and `add_attachment` (which needs a
bytes payload) may raise, and a truthy content identifier is passed
along as `str(cid)`. -/
def processEmlAtt (a : EmlAtt) : Except Unit (Option EmlRec) :=
  let data := emlDataResolve a
  if !data.truthy then .ok Option.none
  else
    let fn := try_attrs a.obj ["longFilename", "shortFilename", "filename", "name"]
    let ctype := pyOr (try_attrs a.obj ["mimetype", "mime"]) (.str "application/octet-stream")
    match splitContentType ctype with
    | .error e => .error e
    | .ok (mt, st) =>
      match data with
      | .bytes b =>
        let cid := try_attrs a.obj ["cid", "contentId", "contentID", "content_id"]
        .ok (some ⟨b, safe_str fn, mt, st,
                   if cid.truthy then some (pyToString cid) else Option.none⟩)
      | _ => .error ()

/-- The attachment loop of `_manual_build_eml` with its single
surrounding try block (lines 88-113): a raising iteration aborts the
loop, keeping the parts already added and dropping the rest. -/
def emlLoop : List EmlAtt → List EmlRec → List EmlRec
  | [], acc => acc.reverse
  | a :: rest, acc =>
    match processEmlAtt a with
    | .ok (some r) => emlLoop rest (r :: acc)
    | .ok Option.none => emlLoop rest acc
    | .error _ => acc.reverse

/-! Content-identifier normalization and the inline-reference
rewriter.  Neither operation appears in the repository's Python sources
(they live in the Node-side consumer that is not part of src/), so both
are modelled from the specification's words. -/

/-- Characters trimmed from both ends of a content identifier:
surrounding angle brackets and whitespace (section 4.4). -/
def isCidTrim (c : Char) : Bool :=
  decide (c.toNat = 60 ∨ c.toNat = 62 ∨ c.toNat = 32 ∨ c.toNat = 9 ∨ c.toNat = 10 ∨ c.toNat = 13)

/-- Trim characters satisfying `p` from both ends of a list. -/
def trimEnds (p : Char → Bool) (l : List Char) : List Char :=
  ((l.dropWhile p).reverse.dropWhile p).reverse

/-- Modelled from the spec: content-identifier normalization (sections
4.4 and 4.5) — trim surrounding angle brackets and whitespace, then
lowercase for comparison, with the original text kept elsewhere for the
output field.  Missing from src/: the comparison logic lives in the
Node-side consumer. -/
def normalizeCid (s : String) : String :=
  String.mk ((trimEnds isCidTrim s.data).map asciiLower)

example : normalizeCid " <ABC@X> " = "abc@x" := rfl
example : normalizeCid "abc@x" = "abc@x" := rfl

/-- CanonicalAttachment of the specification's data model (section 3),
as the rewriter consumes it. -/
structure CAtt where
  filename : String
  contentType : String
  contentId : Option String
  isInline : Bool
  dataBase64 : String
deriving DecidableEq

/-- One node of the resolved HTML body as the rewriter scans it: plain
text between tags, or an image tag carrying its `src` attribute value. -/
inductive HtmlPiece where
  | text (s : String)
  | imgTag (src : String)
deriving DecidableEq

/-- One node of the rewritten HTML: untouched text, or the stable
positional marker token that replaced an image tag. -/
inductive RwPiece where
  | text (s : String)
  | marker
deriving DecidableEq

/-- Number of image tags in a document. -/
def countImgs : List HtmlPiece → Nat
  | [] => 0
  | .imgTag _ :: rest => countImgs rest + 1
  | .text _ :: rest => countImgs rest

/-- Number of marker tokens in a rewritten document. -/
def countMarkers : List RwPiece → Nat
  | [] => 0
  | .marker :: rest => countMarkers rest + 1
  | .text _ :: rest => countMarkers rest

/-- Modelled from the spec: the content-identifier scheme test of
section 4.5 — a `src` beginning with the `cid:` scheme yields its
normalized identifier, anything else (a remote reference) nothing. -/
def cidKey (src : String) : Option String :=
  match src.data with
  | 'c' :: 'i' :: 'd' :: ':' :: rest => some (normalizeCid (String.mk rest))
  | _ => Option.none

/-- Modelled from the spec: look a classified attachment up by
normalized content identifier (section 4.5). -/
def lookupByCid (atts : List CAtt) (key : String) : Option CAtt :=
  atts.find? (fun a => match a.contentId with
                       | some c => normalizeCid c = key
                       | Option.none => false)

/-- Resolution of one image tag: the matching classified attachment for
a content-identifier `src` with a match, `none` for a remote `src` or a
content identifier with no matching attachment. -/
def resolveImg (atts : List CAtt) (src : String) : Option CAtt :=
  match cidKey src with
  | some k => lookupByCid atts k
  | Option.none => Option.none

/-- Modelled from the spec: the single left-to-right scan of section 4.5
over a non-null HTML body — every image tag is replaced by the marker
token and contributes one entry (the resolved attachment or a null
placeholder) to the marker list, in encounter order. -/
def rewriteDoc (atts : List CAtt) : List HtmlPiece → List RwPiece × List (Option CAtt)
  | [] => ([], [])
  | .text s :: rest =>
    let (h, l) := rewriteDoc atts rest
    (.text s :: h, l)
  | .imgTag src :: rest =>
    let (h, l) := rewriteDoc atts rest
    (.marker :: h, resolveImg atts src :: l)

/-- Modelled from the spec: `rewrite(html, classifiedAttachments)` of
section 4.5 — a null HTML body is a no-op returning the input and an
empty marker list. -/
def rewrite (html : Option (List HtmlPiece)) (atts : List CAtt) :
    Option (List RwPiece) × List (Option CAtt) :=
  match html with
  | Option.none => (Option.none, [])
  | some doc =>
    let (h, l) := rewriteDoc atts doc
    (some h, l)

/-- The attachment predicate asserted by claim C5, following the
specification's words (section 4.4, optional mode): content-type
`application/pdf` as determined by the declared type, the filename
extension, or the `%PDF` magic bytes of the payload. -/
def isPdfClaim (a : PyObj) : Bool :=
  (match try_attrs a ["mimetype", "mimeType", "mime"] with
   | .str s => s = "application/pdf"
   | _ => false)
  || (match try_attrs a ["longFilename", "shortFilename", "filename"] with
      | .str s => strEndsWith (strLower s) ".pdf"
      | _ => false)
  || (match try_attrs a ["data"] with
      | .bytes b => b.take 4 = [37, 80, 68, 70]
      | _ => false)

/-! Supporting lemmas about ASCII lowercasing and end trimming. -/

theorem toNat_asciiLower (c : Char) :
    (asciiLower c).toNat = if 65 ≤ c.toNat ∧ c.toNat ≤ 90 then c.toNat + 32 else c.toNat := by
  unfold asciiLower
  split
  case isTrue h =>
    obtain ⟨h1, h2⟩ := h
    set n := c.toNat with hn
    interval_cases n <;> rfl
  case isFalse h => rfl

theorem isCidTrim_asciiLower (c : Char) : isCidTrim (asciiLower c) = isCidTrim c := by
  unfold isCidTrim
  rw [toNat_asciiLower]
  split
  case isTrue h => rw [decide_eq_decide]; omega
  case isFalse h => rfl

theorem asciiLower_idem (c : Char) : asciiLower (asciiLower c) = asciiLower c := by
  by_cases h : 65 ≤ c.toNat ∧ c.toNat ≤ 90
  · have ht : (asciiLower c).toNat = c.toNat + 32 := by rw [toNat_asciiLower, if_pos h]
    have h2 : ¬(65 ≤ (asciiLower c).toNat ∧ (asciiLower c).toNat ≤ 90) := by rw [ht]; omega
    show (if 65 ≤ (asciiLower c).toNat ∧ (asciiLower c).toNat ≤ 90
          then Char.ofNat ((asciiLower c).toNat + 32) else asciiLower c) = asciiLower c
    rw [if_neg h2]
  · have h1 : asciiLower c = c := by unfold asciiLower; rw [if_neg h]
    rw [h1, h1]

theorem head?_dropWhile_false (p : α → Bool) :
    ∀ l : List α, ∀ a, (l.dropWhile p).head? = some a → p a = false := by
  intro l
  induction l with
  | nil => intro a h; simp at h
  | cons x t ih =>
    intro a h
    by_cases hx : p x
    · rw [List.dropWhile_cons, if_pos hx] at h
      exact ih a h
    · rw [List.dropWhile_cons, if_neg hx] at h
      simp at h
      subst h
      simpa using hx

theorem dropWhile_self_of_head (p : α → Bool) (l : List α)
    (h : ∀ a, l.head? = some a → p a = false) : l.dropWhile p = l := by
  cases l with
  | nil => rfl
  | cons x t =>
    rw [List.dropWhile_cons, if_neg]
    simp [h x rfl]

theorem dropWhile_idem (p : α → Bool) (l : List α) :
    (l.dropWhile p).dropWhile p = l.dropWhile p :=
  dropWhile_self_of_head p _ (head?_dropWhile_false p l)

theorem getLast?_dropWhile (p : α → Bool) :
    ∀ l : List α, l.dropWhile p ≠ [] → (l.dropWhile p).getLast? = l.getLast? := by
  intro l
  induction l with
  | nil => intro h; simp at h
  | cons x t ih =>
    intro h
    by_cases hx : p x
    · rw [List.dropWhile_cons, if_pos hx] at h ⊢
      rw [ih h]
      cases t with
      | nil => simp at h
      | cons y u => rw [List.getLast?_cons_cons]
    · rw [List.dropWhile_cons, if_neg hx]

theorem trimEnds_idem (p : Char → Bool) (l : List Char) :
    trimEnds p (trimEnds p l) = trimEnds p l := by
  unfold trimEnds
  by_cases hB : (l.dropWhile p).reverse.dropWhile p = []
  · rw [hB]
    rfl
  · set B := (l.dropWhile p).reverse.dropWhile p with hBdef
    have hhead : ∀ a, B.reverse.head? = some a → p a = false := by
      intro a ha
      rw [List.head?_reverse] at ha
      rw [hBdef, getLast?_dropWhile p _ hB, List.getLast?_reverse] at ha
      exact head?_dropWhile_false p l a ha
    rw [dropWhile_self_of_head p B.reverse hhead, List.reverse_reverse, hBdef,
        dropWhile_idem]

theorem trimEnds_map_asciiLower (l : List Char) :
    trimEnds isCidTrim (l.map asciiLower) = (trimEnds isCidTrim l).map asciiLower := by
  have hp : (isCidTrim ∘ asciiLower) = isCidTrim := by
    funext c
    exact isCidTrim_asciiLower c
  unfold trimEnds
  rw [List.dropWhile_map, hp, ← List.map_reverse, List.dropWhile_map, hp, ← List.map_reverse]

theorem data_normalizeCid (s : String) :
    (normalizeCid s).data = (trimEnds isCidTrim s.data).map asciiLower := rfl

/-! Claim C9. -/

/-- C9: content-identifier normalization (trim surrounding angle
brackets and whitespace, lowercase) is idempotent, the forms
`<ABC@X>`, `abc@x` and `ABC@X` normalize to one comparison key, and the
converter's output field keeps the original identifier text untouched
(the JSON converter passes `cid` through verbatim). -/
theorem C9_cid_normalization :
    (∀ s : String, normalizeCid (normalizeCid s) = normalizeCid s)
    ∧ normalizeCid "<ABC@X>" = normalizeCid "abc@x"
    ∧ normalizeCid "ABC@X" = normalizeCid "abc@x"
    ∧ (attachLoop [[("cid", PyAttr.val (.str "<ABC@X>")),
                    ("filename", PyAttr.val (.str "img.png")),
                    ("data", PyAttr.val (.bytes [1, 2, 3]))]] []).map
        (fun r => r.contentId) = [PyVal.str "<ABC@X>"] := by
  refine ⟨?_, rfl, rfl, rfl⟩
  intro s
  have h : (normalizeCid (normalizeCid s)).data = (normalizeCid s).data := by
    rw [data_normalizeCid, data_normalizeCid, trimEnds_map_asciiLower, trimEnds_idem,
        List.map_map]
    have hf : (asciiLower ∘ asciiLower) = asciiLower := by
      funext c
      exact asciiLower_idem c
    rw [hf]
  exact congrArg String.mk h

/-! Claim C4. -/

/-- Which values `_as_iso8601` turns into a string: date, datetime and
string inputs. -/
def dateStringable : PyVal → Bool
  | .datetime _ => true
  | .pydate _ _ _ => true
  | .str _ => true
  | _ => false

/-- The date/time text without the trailing UTC offset. -/
def isoCore (d : PyDateTime) : String :=
  pad4 d.year ++ "-" ++ pad2 d.month ++ "-" ++ pad2 d.day ++ "T" ++
  pad2 d.hour ++ ":" ++ pad2 d.minute ++ ":" ++ pad2 d.second ++
  (if d.microsecond = 0 then "" else "." ++ pad6 d.microsecond)

/-- C4 counterexample: the date coercion gives the timezone-naive
timestamp 2024-01-01T10:00:00 back without assigning UTC, so the claimed
result `2024-01-01T10:00:00+00:00` is not produced. -/
theorem C4_counterexample :
    as_iso8601 (.datetime ⟨2024, 1, 1, 10, 0, 0, 0, Option.none⟩)
      = some "2024-01-01T10:00:00"
    ∧ as_iso8601 (.datetime ⟨2024, 1, 1, 10, 0, 0, 0, Option.none⟩)
      ≠ some "2024-01-01T10:00:00+00:00" := by
  constructor
  · rfl
  · decide

/-- C4 (amended): a timezone-aware date/time yields its ISO-8601 string
with the timezone preserved; a timezone-naive date/time yields its
ISO-8601 string with NO timezone designator (UTC is not assigned); a
string passes through unchanged; and an absent or non-date value coerces
to null — the coercion is a total function and never raises. -/
theorem C4_date_coercion :
    (∀ (d : PyDateTime) (off : Int), d.tzOffsetMinutes = some off →
       as_iso8601 (.datetime d) = some (isoCore d ++ offsetText off))
    ∧ (∀ d : PyDateTime, d.tzOffsetMinutes = Option.none →
       as_iso8601 (.datetime d) = some (isoCore d))
    ∧ (∀ s : String, as_iso8601 (.str s) = some s)
    ∧ (∀ v : PyVal, dateStringable v = false → as_iso8601 v = Option.none) := by
  refine ⟨?_, ?_, fun s => rfl, ?_⟩
  · intro d off h
    show some (d.isoformat) = _
    unfold PyDateTime.isoformat PyDateTime.isoformatSep isoCore
    rw [h]
  · intro d h
    show some (d.isoformat) = _
    unfold PyDateTime.isoformat PyDateTime.isoformatSep isoCore
    rw [h]
    simp
  · intro v h
    cases v <;> first
      | rfl
      | simp [dateStringable] at h

/-- C4 witness: the amended coercion evaluated at an aware timestamp
(offset +90 minutes), the naive timestamp of the specification's
scenario, a string and `None`. -/
theorem C4_date_coercion_witness :
    as_iso8601 (.datetime ⟨2024, 1, 2, 3, 4, 5, 0, some 90⟩)
      = some (isoCore ⟨2024, 1, 2, 3, 4, 5, 0, some 90⟩ ++ offsetText 90)
    ∧ as_iso8601 (.datetime ⟨2024, 1, 1, 10, 0, 0, 0, Option.none⟩)
      = some (isoCore ⟨2024, 1, 1, 10, 0, 0, 0, Option.none⟩)
    ∧ as_iso8601 (.str "yesterday") = some "yesterday"
    ∧ as_iso8601 .none = Option.none :=
  ⟨C4_date_coercion.1 _ 90 rfl, C4_date_coercion.2.1 _ rfl,
   C4_date_coercion.2.2.1 "yesterday", C4_date_coercion.2.2.2 .none rfl⟩

/-! Claim C10. -/

/-- C10: for every input, the PDF-filtering converter's `main` writes
exactly one JSON object to stdout, that object carries a boolean `ok`
field (`true` with the success payload, `false` for the failure object
produced on any exception), and the process exit status is 0 in both
cases, so the exit code never distinguishes success from failure. -/
theorem C10_main_contract :
    ∀ inp : PdfInput,
      (pdfMain inp).exitCode = 0
      ∧ (pdfMain inp).stdout.length = 1
      ∧ ∀ j ∈ (pdfMain inp).stdout,
          (j.okField = true ∧ ∃ p, j = .success p) ∨ (j.okField = false ∧ j = .failure) := by
  intro inp
  cases inp with
  | earlyFail =>
    refine ⟨rfl, rfl, ?_⟩
    intro j hj
    simp [pdfMain] at hj
    subst hj
    right
    exact ⟨rfl, rfl⟩
  | parsed m =>
    cases h : pdfRun m with
    | ok p =>
      refine ⟨by simp [pdfMain, h], by simp [pdfMain, h], ?_⟩
      intro j hj
      simp [pdfMain, h] at hj
      subst hj
      exact Or.inl ⟨rfl, p, rfl⟩
    | error e =>
      refine ⟨by simp [pdfMain, h], by simp [pdfMain, h], ?_⟩
      intro j hj
      simp [pdfMain, h] at hj
      subst hj
      exact Or.inr ⟨rfl, rfl⟩

/-- C10 witness: the contract applied to the early-failure input (bytes
that never parse), whose single output object is the `ok: false`
failure object with exit status 0. -/
theorem C10_main_contract_witness :
    (pdfMain PdfInput.earlyFail).exitCode = 0
    ∧ (pdfMain PdfInput.earlyFail).stdout.length = 1
    ∧ ((JObj.failure.okField = true ∧ ∃ p, JObj.failure = JObj.success p)
       ∨ (JObj.failure.okField = false ∧ JObj.failure = JObj.failure)) :=
  ⟨(C10_main_contract PdfInput.earlyFail).1,
   (C10_main_contract PdfInput.earlyFail).2.1,
   (C10_main_contract PdfInput.earlyFail).2.2 JObj.failure (by simp [pdfMain])⟩

/-! Claim C1. -/

/-- The marker-list entry contributed by one document node: image tags
contribute their resolution, text nodes contribute nothing. -/
def imgEntry (atts : List CAtt) : HtmlPiece → Option (Option CAtt)
  | .imgTag src => some (resolveImg atts src)
  | .text _ => Option.none

/-- C1: on a null HTML body the rewrite is a no-op returning the input
and an empty marker list; on a document it produces exactly as many
marker tokens as image tags, a marker list of the same length whose
entries are the resolutions of the image tags in left-to-right document
order, and when every image tag's `src` is a content-identifier
reference matching a classified attachment (in particular the claim's
case of N references matching N distinct attachments) every entry is
non-null. -/
theorem C1_rewrite_markers :
    (∀ atts, rewrite Option.none atts = (Option.none, []))
    ∧ (∀ atts doc,
        countMarkers (rewriteDoc atts doc).1 = countImgs doc
        ∧ (rewriteDoc atts doc).2.length = countImgs doc
        ∧ (rewriteDoc atts doc).2 = doc.filterMap (imgEntry atts)
        ∧ rewrite (some doc) atts = (some (rewriteDoc atts doc).1, (rewriteDoc atts doc).2))
    ∧ (∀ atts doc,
        (∀ src, HtmlPiece.imgTag src ∈ doc → (resolveImg atts src).isSome = true) →
        ∀ e ∈ (rewriteDoc atts doc).2, e.isSome = true) := by
  refine ⟨fun atts => rfl, ?_, ?_⟩
  · intro atts doc
    induction doc with
    | nil => exact ⟨rfl, rfl, rfl, rfl⟩
    | cons p rest ih =>
      obtain ⟨ih1, ih2, ih3, _⟩ := ih
      cases p with
      | text s =>
        refine ⟨?_, ?_, ?_, rfl⟩
        · simpa [rewriteDoc, countMarkers, countImgs] using ih1
        · simpa [rewriteDoc, countImgs] using ih2
        · simpa [rewriteDoc, imgEntry, List.filterMap_cons] using ih3
      | imgTag src =>
        refine ⟨?_, ?_, ?_, rfl⟩
        · simpa [rewriteDoc, countMarkers, countImgs] using ih1
        · simpa [rewriteDoc, countImgs] using ih2
        · simpa [rewriteDoc, imgEntry, List.filterMap_cons] using ih3
  · intro atts doc
    induction doc with
    | nil =>
      intro _ e he
      simp [rewriteDoc] at he
    | cons p rest ih =>
      intro hres e he
      cases p with
      | text s =>
        rw [show rewriteDoc atts (HtmlPiece.text s :: rest)
              = (RwPiece.text s :: (rewriteDoc atts rest).1, (rewriteDoc atts rest).2) from rfl] at he
        exact ih (fun src hs => hres src (List.mem_cons_of_mem _ hs)) e he
      | imgTag src =>
        rw [show rewriteDoc atts (HtmlPiece.imgTag src :: rest)
              = (RwPiece.marker :: (rewriteDoc atts rest).1,
                 resolveImg atts src :: (rewriteDoc atts rest).2) from rfl] at he
        rcases List.mem_cons.mp he with h | h
        · rw [h]
          exact hres src (List.mem_cons_self _ _)
        · exact ih (fun s hs => hres s (List.mem_cons_of_mem _ hs)) e h

/-- C1 witness: a document with two content-identifier image references
(one wrapped in angle brackets, differing in case) over a matching
two-attachment classification: two markers, a marker list of length two,
both entries resolved, in document order; and the null-body no-op. -/
theorem C1_rewrite_markers_witness :
    (∀ e ∈ (rewriteDoc
        [⟨"a.png", "image/png", some "<IMG1@x>", true, "AA=="⟩,
         ⟨"b.png", "image/png", some "img2@x", true, "AQ=="⟩]
        [HtmlPiece.text "<p>hi</p>", HtmlPiece.imgTag "cid:IMG2@X",
         HtmlPiece.text "mid", HtmlPiece.imgTag "cid: <img1@x>"]).2, e.isSome = true)
    ∧ countMarkers (rewriteDoc
        [⟨"a.png", "image/png", some "<IMG1@x>", true, "AA=="⟩,
         ⟨"b.png", "image/png", some "img2@x", true, "AQ=="⟩]
        [HtmlPiece.text "<p>hi</p>", HtmlPiece.imgTag "cid:IMG2@X",
         HtmlPiece.text "mid", HtmlPiece.imgTag "cid: <img1@x>"]).1 = 2
    ∧ rewrite Option.none
        [⟨"a.png", "image/png", some "<IMG1@x>", true, "AA=="⟩] = (Option.none, []) :=
  ⟨C1_rewrite_markers.2.2 _ _
     (by
       intro src hs
       simp at hs
       rcases hs with h | h <;> (subst h; rfl)),
   (C1_rewrite_markers.2.1 _ _).1.trans rfl,
   C1_rewrite_markers.1 _⟩

/-! Claim C6. -/

/-- C6 counterexample: the resolver `_first_attr` of `msg_to_json.py`,
given an object whose first candidate is present but `None` and whose
second candidate holds the usable string `x`, returns `None` instead of
skipping to `x` — refuting the claim that candidates that are present
but null or empty are skipped. -/
theorem C6_counterexample :
    first_attr [("a", PyAttr.val .none), ("b", PyAttr.val (.str "x"))] ["a", "b"]
      = PyVal.none
    ∧ pyHasattr [("a", PyAttr.val .none), ("b", PyAttr.val (.str "x"))] "b" = true
    ∧ (PyVal.str "x").truthy = true
    ∧ resolveSpec [("a", PyAttr.val .none), ("b", PyAttr.val (.str "x"))] ["a", "b"]
      = PyVal.str "x" :=
  ⟨rfl, rfl, rfl, rfl⟩

/-- C6 (amended): of the two field resolvers, `_try_attrs`
(`py/msg_to_eml.py`) behaves exactly as claimed — first candidate whose
evaluated value is non-null and non-empty, skipping present-but-falsy
and raising candidates, null otherwise, with no side effects (it is a
pure function of the object); `_first_attr` (`msg_to_json.py`) instead
returns the first present candidate's value even when that value is null
or empty, and agrees with the claimed behavior only when every present
candidate evaluates without raising to a non-null, non-empty value. -/
theorem C6_field_resolver :
    (∀ (o : PyObj) (names : List String), try_attrs o names = resolveSpec o names)
    ∧ (∀ (o : PyObj) (names : List String),
        (∀ n ∈ names, pyHasattr o n = true →
          ∃ v, specEval o n = some v ∧ v.truthy = true) →
        first_attr o names = resolveSpec o names) := by
  constructor
  · intro o names
    induction names with
    | nil => rfl
    | cons n rest ih =>
      cases h : lookupAttr o n with
      | none => simp [try_attrs, resolveSpec, specEval, h, ih]
      | some attr =>
        cases attr with
        | raising => simp [try_attrs, resolveSpec, specEval, h, ih]
        | val v =>
          cases v with
          | callable ok v' =>
            cases ok <;> simp [try_attrs, resolveSpec, specEval, h, ih]
          | none => simp [try_attrs, resolveSpec, specEval, h, ih, PyVal.truthy]
          | str s => simp [try_attrs, resolveSpec, specEval, h, ih]
          | bytes b => simp [try_attrs, resolveSpec, specEval, h, ih]
          | pybool b => simp [try_attrs, resolveSpec, specEval, h, ih]
          | int n' => simp [try_attrs, resolveSpec, specEval, h, ih]
          | list xs => simp [try_attrs, resolveSpec, specEval, h, ih]
          | datetime d => simp [try_attrs, resolveSpec, specEval, h, ih, PyVal.truthy]
          | pydate y m dd => simp [try_attrs, resolveSpec, specEval, h, ih, PyVal.truthy]
  · intro o names
    induction names with
    | nil => intro _; rfl
    | cons n rest ih =>
      intro hg
      have hrest := fun n' h' => hg n' (List.mem_cons_of_mem _ h')
      by_cases hh : pyHasattr o n = true
      · obtain ⟨v, hev, htr⟩ := hg n (List.mem_cons_self _ _) hh
        cases hl : lookupAttr o n with
        | none => rw [pyHasattr, hl] at hh; simp at hh
        | some attr =>
          cases attr with
          | raising => rw [pyHasattr, hl] at hh; simp at hh
          | val w =>
            cases w with
            | callable ok v' =>
              rw [specEval, hl] at hev
              cases ok with
              | true =>
                simp at hev
                subst hev
                simp [first_attr, pyHasattr, hl, resolveSpec, specEval, htr]
              | false => simp at hev
            | none =>
              rw [specEval, hl] at hev
              simp at hev
              subst hev
              simp [PyVal.truthy] at htr
            | str s =>
              rw [specEval, hl] at hev
              simp at hev
              subst hev
              simp [first_attr, pyHasattr, hl, resolveSpec, specEval, htr]
            | bytes b =>
              rw [specEval, hl] at hev
              simp at hev
              subst hev
              simp [first_attr, pyHasattr, hl, resolveSpec, specEval, htr]
            | pybool b =>
              rw [specEval, hl] at hev
              simp at hev
              subst hev
              simp [first_attr, pyHasattr, hl, resolveSpec, specEval, htr]
            | int n' =>
              rw [specEval, hl] at hev
              simp at hev
              subst hev
              simp [first_attr, pyHasattr, hl, resolveSpec, specEval, htr]
            | list xs =>
              rw [specEval, hl] at hev
              simp at hev
              subst hev
              simp [first_attr, pyHasattr, hl, resolveSpec, specEval, htr]
            | datetime d =>
              rw [specEval, hl] at hev
              simp at hev
              subst hev
              simp [first_attr, pyHasattr, hl, resolveSpec, specEval, htr]
            | pydate y m dd =>
              rw [specEval, hl] at hev
              simp at hev
              subst hev
              simp [first_attr, pyHasattr, hl, resolveSpec, specEval, htr]
      · have hskip : first_attr o (n :: rest) = first_attr o rest := by
          simp [first_attr, hh]
        cases hl : lookupAttr o n with
        | none => rw [hskip, ih hrest, resolveSpec, specEval, hl]
        | some attr =>
          cases attr with
          | raising => rw [hskip, ih hrest, resolveSpec, specEval, hl]
          | val w => rw [pyHasattr, hl] at hh; simp at hh

/-- C6 witness: both halves of the amended statement applied to a
concrete object carrying a raising property, a raising callable, an
empty-string candidate and a usable candidate. -/
theorem C6_field_resolver_witness :
    try_attrs [("a", PyAttr.raising), ("b", PyAttr.val (.callable false (.str "u"))),
               ("c", PyAttr.val (.str "")), ("d", PyAttr.val (.str "ok"))]
        ["a", "b", "c", "d"]
      = resolveSpec [("a", PyAttr.raising), ("b", PyAttr.val (.callable false (.str "u"))),
                     ("c", PyAttr.val (.str "")), ("d", PyAttr.val (.str "ok"))]
          ["a", "b", "c", "d"]
    ∧ first_attr [("x", PyAttr.val (.str "v")), ("y", PyAttr.val (.str "w"))] ["x", "y"]
      = resolveSpec [("x", PyAttr.val (.str "v")), ("y", PyAttr.val (.str "w"))] ["x", "y"] :=
  ⟨C6_field_resolver.1 _ _,
   C6_field_resolver.2 _ _
     (by
       intro n hn hh
       simp at hn
       rcases hn with h | h <;> subst h
       · exact ⟨.str "v", rfl, rfl⟩
       · exact ⟨.str "w", rfl, rfl⟩)⟩

/-! Claim C7. -/

/-- C7 counterexample: an attachment whose content identifier resolves
to `abc@x` but that carries no `isInline` field is emitted with
`inline = false`, refuting "isInline is true if and only if a
content-identifier was resolved". -/
theorem C7_counterexample :
    (attachLoop [[("cid", PyAttr.val (.str "abc@x")),
                  ("filename", PyAttr.val (.str "p.png")),
                  ("data", PyAttr.val (.bytes [1, 2]))]] []).map (fun r => r.inline)
      = [false]
    ∧ (attachLoop [[("cid", PyAttr.val (.str "abc@x")),
                    ("filename", PyAttr.val (.str "p.png")),
                    ("data", PyAttr.val (.bytes [1, 2]))]] []).map
        (fun r => r.contentId.truthy) = [true] :=
  ⟨rfl, rfl⟩

/-- C7 (amended): the output `inline` flag reflects only the source
attachment's own `isInline` field (its truthiness, `false` when the
field is absent or `None`); it is independent of whether a content
identifier was resolved, and the content identifier is carried through
verbatim alongside it.  The converter keeps every classified attachment
in the single `attachments` list (no separate `inlineImages` list
exists). -/
theorem C7_inline_flag :
    ∀ (a : PyObj) (rec : AttRec), processAttachment a = .ok rec →
      rec.inline = (if (first_attr a jsonInlineNames).isNoneV then false
                    else (first_attr a jsonInlineNames).truthy)
      ∧ rec.contentId = pyOr (first_attr a jsonCidNames) .none := by
  intro a rec h
  unfold processAttachment at h
  dsimp only at h
  split at h
  · exact absurd h (by simp)
  · split at h
    · exact absurd h (by simp)
    · injection h with h'
      subst h'
      exact ⟨rfl, rfl⟩

/-- C7 witness: the amended flag characterization at an attachment
whose own `isInline` field is true, with a content identifier and a
payload present. -/
theorem C7_inline_flag_witness :
    (AttRec.mk (.str "attachment") (.str "z@q") true "application/octet-stream" 1
        (some "BQ==")).inline
      = (if (first_attr [("isInline", PyAttr.val (.pybool true)),
                         ("cid", PyAttr.val (.str "z@q")),
                         ("data", PyAttr.val (.bytes [5]))] jsonInlineNames).isNoneV
         then false
         else (first_attr [("isInline", PyAttr.val (.pybool true)),
                           ("cid", PyAttr.val (.str "z@q")),
                           ("data", PyAttr.val (.bytes [5]))] jsonInlineNames).truthy)
    ∧ (AttRec.mk (.str "attachment") (.str "z@q") true "application/octet-stream" 1
        (some "BQ==")).contentId
      = pyOr (first_attr [("isInline", PyAttr.val (.pybool true)),
                          ("cid", PyAttr.val (.str "z@q")),
                          ("data", PyAttr.val (.bytes [5]))] jsonCidNames) .none :=
  C7_inline_flag _ _ rfl

/-! Claim C3. -/

/-- C3 counterexample: of three source attachments, the middle one
raises while its payload is encoded (an integer payload reaches
`base64.b64encode`); the loop-level exception handler then discards the
third attachment as well, even though it is processable on its own —
only one attachment survives instead of two. -/
theorem C3_counterexample :
    (attachLoop [[("filename", PyAttr.val (.str "a.txt")),
                  ("data", PyAttr.val (.bytes [65]))],
                 [("data", PyAttr.val (.int 5))],
                 [("filename", PyAttr.val (.str "b.txt")),
                  ("data", PyAttr.val (.bytes [66]))]] []).length = 1
    ∧ (attachLoop [[("filename", PyAttr.val (.str "b.txt")),
                    ("data", PyAttr.val (.bytes [66]))]] []).length = 1 :=
  ⟨rfl, rfl⟩

/-- An iteration of the JSON converter's attachment loop that raises
cuts processing off: everything after it is dropped while everything
before it is kept, regardless of where in the list it sits. -/
theorem attachLoop_append_error (a : PyObj) (ha : processAttachment a = .error ()) :
    ∀ (pre post : List PyObj) (acc : List AttRec),
      attachLoop (pre ++ a :: post) acc = attachLoop pre acc := by
  intro pre
  induction pre with
  | nil =>
    intro post acc
    simp [attachLoop, ha]
  | cons x t ih =>
    intro post acc
    show attachLoop (x :: (t ++ a :: post)) acc = attachLoop (x :: t) acc
    unfold attachLoop
    cases h : processAttachment x with
    | ok r => exact ih post (r :: acc)
    | error e => rfl

/-- The same cut-off behavior for the EML builder's attachment loop. -/
theorem emlLoop_append_error (a : EmlAtt) (ha : processEmlAtt a = .error ()) :
    ∀ (pre post : List EmlAtt) (acc : List EmlRec),
      emlLoop (pre ++ a :: post) acc = emlLoop pre acc := by
  intro pre
  induction pre with
  | nil =>
    intro post acc
    simp [emlLoop, ha]
  | cons x t ih =>
    intro post acc
    show emlLoop (x :: (t ++ a :: post)) acc = emlLoop (x :: t) acc
    unfold emlLoop
    cases h : processEmlAtt x with
    | ok r =>
      cases r with
      | some v => exact ih post (v :: acc)
      | none => exact ih post acc
    | error e => rfl

/-- C3 (amended): attachments are not processed independently — in both
converters the whole attachment loop sits in a single try block, so a
failure while extracting one attachment's fields or payload keeps the
siblings already processed before it but aborts the loop: the siblings
after it are not processed and do not appear in the result (the
conversion itself still succeeds). -/
theorem C3_sibling_isolation :
    (∀ (a : PyObj), processAttachment a = .error () →
      ∀ (pre post : List PyObj), attachLoop (pre ++ a :: post) [] = attachLoop pre [])
    ∧ (∀ (a : EmlAtt), processEmlAtt a = .error () →
      ∀ (pre post : List EmlAtt), emlLoop (pre ++ a :: post) [] = emlLoop pre []) :=
  ⟨fun a ha pre post => attachLoop_append_error a ha pre post [],
   fun a ha pre post => emlLoop_append_error a ha pre post []⟩

/-- C3 witness: the amended cut-off applied at the counterexample's
failing attachment (integer payload) and at an EML attachment whose
declared content type is an integer (so `.partition` raises). -/
theorem C3_sibling_isolation_witness :
    attachLoop ([[("filename", PyAttr.val (.str "a.txt")),
                  ("data", PyAttr.val (.bytes [65]))]]
                ++ [("data", PyAttr.val (.int 5))]
                :: [[("filename", PyAttr.val (.str "b.txt")),
                     ("data", PyAttr.val (.bytes [66]))]]) []
      = attachLoop [[("filename", PyAttr.val (.str "a.txt")),
                     ("data", PyAttr.val (.bytes [65]))]] []
    ∧ emlLoop ([] ++ (EmlAtt.mk [("data", PyAttr.val (.bytes [1])),
                                 ("mimetype", PyAttr.val (.int 3))] Option.none)
               :: [EmlAtt.mk [("data", PyAttr.val (.bytes [2]))] Option.none]) []
      = emlLoop [] [] :=
  ⟨C3_sibling_isolation.1 [("data", PyAttr.val (.int 5))] rfl
     [[("filename", PyAttr.val (.str "a.txt")), ("data", PyAttr.val (.bytes [65]))]]
     [[("filename", PyAttr.val (.str "b.txt")), ("data", PyAttr.val (.bytes [66]))]],
   C3_sibling_isolation.2
     (EmlAtt.mk [("data", PyAttr.val (.bytes [1])), ("mimetype", PyAttr.val (.int 3))]
        Option.none) rfl
     [] [EmlAtt.mk [("data", PyAttr.val (.bytes [2]))] Option.none]⟩

/-! Claim C2. -/

/-- C2 counterexample: the JSON converter (`msg_to_json.py`) does NOT
exclude an attachment whose payload cannot be resolved — a source
attachment carrying only a filename still appears in the output
attachment list, with a null `dataBase64` and size 0. -/
theorem C2_counterexample :
    (parse_msg (SrcMsg.mk []
        (.ok (some [[("longFilename", PyAttr.val (.str "x.bin"))]])))).attachmentCount = 1
    ∧ (parse_msg (SrcMsg.mk []
        (.ok (some [[("longFilename", PyAttr.val (.str "x.bin"))]])))).attachments.map
        (fun r => r.dataBase64) = [Option.none] :=
  ⟨rfl, rfl⟩

/-- The record the JSON converter emits for an attachment without a
resolvable payload: all metadata fields filled, no payload bytes. -/
def mkPayloadlessRec (a : PyObj) (ct : Option String) : AttRec :=
  { filename := pyOr (first_attr a jsonFnameNames) (.str "attachment")
    contentId := pyOr (first_attr a jsonCidNames) .none
    inline := if (first_attr a jsonInlineNames).isNoneV then false
              else (first_attr a jsonInlineNames).truthy
    contentType := ct.getD "application/octet-stream"
    size := 0
    dataBase64 := Option.none }

/-- C2 (amended): an attachment whose payload cannot be resolved to
non-empty bytes is dropped entirely only by the PDF-filtering converter
(`py/parse_msg.py`) and the EML builder (`py/msg_to_eml.py`), both of
which `continue` past it without failing; the JSON converter
(`msg_to_json.py`) instead retains it in the output attachment list with
`dataBase64` null and size 0.  In all three the conversion itself still
succeeds. -/
theorem C2_payloadless_attachments :
    (∀ (a : PyObj) (rest : List PyObj) (n d : PyVal),
       pdfName a = .ok n → pyGetattr a "data" = .ok d → d.truthy = false →
       processPdfAtt a = .ok Option.none ∧ pdfLoop (a :: rest) = pdfLoop rest)
    ∧ (∀ (a : PyObj) (rest : List PyObj) (acc : List AttRec) (ct : Option String),
       (jsonDataResolve a).truthy = false →
       pyGuessType (pyOr (first_attr a jsonFnameNames) (.str "")) = .ok ct →
       processAttachment a = .ok (mkPayloadlessRec a ct)
       ∧ (mkPayloadlessRec a ct).dataBase64 = Option.none
       ∧ (mkPayloadlessRec a ct).size = 0
       ∧ attachLoop (a :: rest) acc = attachLoop rest (mkPayloadlessRec a ct :: acc))
    ∧ (∀ (a : EmlAtt) (rest : List EmlAtt) (acc : List EmlRec),
       (emlDataResolve a).truthy = false →
       processEmlAtt a = .ok Option.none ∧ emlLoop (a :: rest) acc = emlLoop rest acc) := by
  refine ⟨?_, ?_, ?_⟩
  · intro a rest n d h1 h2 h3
    have hp : processPdfAtt a = .ok Option.none := by
      unfold processPdfAtt
      rw [h1, h2]
      dsimp only
      rw [h3]
      rfl
    refine ⟨hp, ?_⟩
    show (match processPdfAtt a with
          | .error e => .error e
          | .ok r =>
            match pdfLoop rest with
            | .error e => .error e
            | .ok rs => .ok (match r with
                             | some x => x :: rs
                             | Option.none => rs)) = pdfLoop rest
    rw [hp]
    cases pdfLoop rest <;> rfl
  · intro a rest acc ct h1 h2
    have hsize : (match jsonDataResolve a with
                  | PyVal.bytes b => if b.isEmpty then 0 else b.length
                  | _ => 0) = 0 := by
      cases hd : jsonDataResolve a
      case bytes b =>
        rw [hd] at h1
        simp [PyVal.truthy] at h1
        simp [h1]
      all_goals rfl
    have hp : processAttachment a = .ok (mkPayloadlessRec a ct) := by
      unfold processAttachment mkPayloadlessRec
      dsimp only
      rw [h1, h2, hsize]
      rfl
    refine ⟨hp, rfl, rfl, ?_⟩
    show (match processAttachment a with
          | .ok r => attachLoop rest (r :: acc)
          | .error _ => acc.reverse) = attachLoop rest (mkPayloadlessRec a ct :: acc)
    rw [hp]
  · intro a rest acc h
    have hp : processEmlAtt a = .ok Option.none := by
      unfold processEmlAtt
      dsimp only
      rw [h]
      rfl
    refine ⟨hp, ?_⟩
    show (match processEmlAtt a with
          | .ok (some r) => emlLoop rest (r :: acc)
          | .ok Option.none => emlLoop rest acc
          | .error _ => acc.reverse) = emlLoop rest acc
    rw [hp]

/-- C2 witness: the three amended behaviors at concrete payload-less
attachments — an empty-payload PDF name in the filtering converter, a
filename-only attachment in the JSON converter, and an empty EML
attachment. -/
theorem C2_payloadless_attachments_witness :
    (processPdfAtt [("longFilename", PyAttr.val (.str "x.pdf")),
                    ("data", PyAttr.val (.bytes []))] = .ok Option.none
     ∧ pdfLoop ([("longFilename", PyAttr.val (.str "x.pdf")),
                 ("data", PyAttr.val (.bytes []))] :: []) = pdfLoop [])
    ∧ (processAttachment [("longFilename", PyAttr.val (.str "x.bin"))]
         = .ok (mkPayloadlessRec [("longFilename", PyAttr.val (.str "x.bin"))] Option.none)
       ∧ (mkPayloadlessRec [("longFilename", PyAttr.val (.str "x.bin"))]
            Option.none).dataBase64 = Option.none
       ∧ (mkPayloadlessRec [("longFilename", PyAttr.val (.str "x.bin"))]
            Option.none).size = 0
       ∧ attachLoop ([("longFilename", PyAttr.val (.str "x.bin"))] :: []) []
         = attachLoop []
             (mkPayloadlessRec [("longFilename", PyAttr.val (.str "x.bin"))]
                Option.none :: []))
    ∧ (processEmlAtt (EmlAtt.mk [] Option.none) = .ok Option.none
       ∧ emlLoop (EmlAtt.mk [] Option.none :: []) [] = emlLoop [] []) :=
  ⟨C2_payloadless_attachments.1 _ [] (.str "x.pdf") (.bytes []) rfl rfl rfl,
   C2_payloadless_attachments.2.1 _ [] [] Option.none rfl rfl,
   C2_payloadless_attachments.2.2 (EmlAtt.mk [] Option.none) [] [] rfl⟩

/-! Claim C5. -/

/-- C5 counterexample: an attachment whose declared content type is
`application/pdf` but whose filename (`doc.bin`) and payload (`hi`) give
no PDF signal satisfies the claimed predicate, yet the filtering
converter drops it — the declared type is never consulted. -/
theorem C5_counterexample :
    isPdfClaim [("mimetype", PyAttr.val (.str "application/pdf")),
                ("longFilename", PyAttr.val (.str "doc.bin")),
                ("data", PyAttr.val (.bytes [104, 105]))] = true
    ∧ pdfLoop [[("mimetype", PyAttr.val (.str "application/pdf")),
                ("longFilename", PyAttr.val (.str "doc.bin")),
                ("data", PyAttr.val (.bytes [104, 105]))]] = .ok [] :=
  ⟨rfl, rfl⟩

/-- The filename the filtering converter resolves: the source name, or
`attachment` when it is empty. -/
def pdfResolvedName (s : String) : String := if s.isEmpty then "attachment" else s

/-- The keep-predicate the filtering converter actually implements:
non-empty payload, and the lowercased resolved filename ends in `.pdf`
or the payload starts with the `%PDF` magic bytes. -/
def pdfKeep (s : String) (b : List Nat) : Bool :=
  !b.isEmpty && (strEndsWith (strLower (pdfResolvedName s)) ".pdf"
                 || b.take 4 = [37, 80, 68, 70])

/-- The record emitted for a kept attachment. -/
def mkPdfRec (s : String) (b : List Nat) : PdfRec :=
  ⟨pdfResolvedName s, "application/pdf", b64encode b⟩

/-- One filtering iteration on an attachment exposing a string filename
and a bytes payload reduces to the keep-predicate. -/
theorem processPdfAtt_pair (s : String) (b : List Nat) :
    processPdfAtt [("longFilename", PyAttr.val (.str s)),
                   ("data", PyAttr.val (.bytes b))]
      = .ok (if pdfKeep s b then some (mkPdfRec s b) else Option.none) := by
  have hname : pdfName [("longFilename", PyAttr.val (.str s)),
                        ("data", PyAttr.val (.bytes b))]
      = .ok (.str (pdfResolvedName s)) := by
    by_cases hs : s.isEmpty <;>
      simp [pdfName, pyGetattrD, lookupAttr, pdfResolvedName, PyVal.truthy, hs]
  unfold processPdfAtt
  rw [hname, show pyGetattr [("longFilename", PyAttr.val (.str s)),
                             ("data", PyAttr.val (.bytes b))] "data"
        = .ok (.bytes b) from rfl]
  dsimp only
  by_cases hb : b.isEmpty
  · simp [PyVal.truthy, hb, pdfKeep]
  · by_cases hpdf : strEndsWith (strLower (pdfResolvedName s)) ".pdf"
    · simp [PyVal.truthy, hb, hpdf, pdfKeep, mkPdfRec]
    · by_cases hm : b.take 4 = [37, 80, 68, 70] <;>
        simp [PyVal.truthy, hb, hpdf, hm, pdfKeep, mkPdfRec, sliceEqPdfMagic]

/-- C5 (amended): over attachments exposing a string filename and a
bytes payload, the PDF-only filtering mode keeps exactly those with a
non-empty payload whose lowercased resolved filename ends in `.pdf` or
whose payload starts with the `%PDF` magic bytes, preserving their
relative source order; the declared content type is not consulted (a
`mimetype` attribute never changes the outcome), contrary to the
claim's "by declared type" disjunct. -/
theorem C5_pdf_filter :
    (∀ l : List (String × List Nat),
       pdfLoop (l.map (fun p => [("longFilename", PyAttr.val (.str p.1)),
                                 ("data", PyAttr.val (.bytes p.2))]))
         = .ok ((l.filter (fun p => pdfKeep p.1 p.2)).map (fun p => mkPdfRec p.1 p.2)))
    ∧ (∀ (v : PyVal) (a : PyObj),
       processPdfAtt (("mimetype", PyAttr.val v) :: a) = processPdfAtt a) := by
  constructor
  · intro l
    induction l with
    | nil => rfl
    | cons p t ih =>
      simp only [List.map_cons, pdfLoop, processPdfAtt_pair, ih, List.filter_cons]
      by_cases hk : pdfKeep p.1 p.2 <;> simp [hk]
  · intro v a
    have e1 : lookupAttr (("mimetype", PyAttr.val v) :: a) "longFilename"
        = lookupAttr a "longFilename" := by simp [lookupAttr]
    have e2 : lookupAttr (("mimetype", PyAttr.val v) :: a) "shortFilename"
        = lookupAttr a "shortFilename" := by simp [lookupAttr]
    have e3 : lookupAttr (("mimetype", PyAttr.val v) :: a) "filename"
        = lookupAttr a "filename" := by simp [lookupAttr]
    have e4 : lookupAttr (("mimetype", PyAttr.val v) :: a) "data"
        = lookupAttr a "data" := by simp [lookupAttr]
    unfold processPdfAtt pdfName pyGetattrD pyGetattr
    rw [e1, e2, e3, e4]

/-! Claim C8. -/

/-- C8: for a source message with no HTML body — including a present
but empty HTML field, which the truthiness checks treat as absent — the
EML builder's body resolution yields a null `html` and a `text` that is
either the plain-text body's coercion or the rich-text derivation
(whatever the derivation function produces), and the JSON converter
yields `body_html = null` with `body_text` equal to the coerced raw
plain-text body, which is a string (possibly empty) and never null. -/
theorem C8_body_fallback :
    ∀ (rtfToText : PyVal → String) (me : PyObj) (m : SrcMsg),
      (try_attrs me emlHtmlNames).truthy = false →
      (∀ s, ensure_str (first_attr m.obj jsonHtmlNames) = some s → s.isEmpty = true) →
      (emlBody rtfToText me).1 = Option.none
      ∧ ((emlBody rtfToText me).2 = safe_str (try_attrs me emlPlainNames)
         ∨ (emlBody rtfToText me).2 = rtfToText (rtfArg me))
      ∧ (parse_msg m).bodyHtml = Option.none
      ∧ (parse_msg m).bodyText
        = (match ensure_str (first_attr m.obj jsonTextNames) with
           | some s => s
           | Option.none => "") := by
  intro f me m h1 h2
  refine ⟨?_, ?_, ?_, ?_⟩
  · simp [emlBody, h1]
  · by_cases ht : (try_attrs me emlPlainNames).truthy
    · by_cases hse : (safe_str (try_attrs me emlPlainNames)).isEmpty
      · right
        simp [emlBody, h1, ht, hse]
      · left
        simp [emlBody, h1, ht, hse]
    · right
      simp [emlBody, h1, ht]
  · show (parse_msg m).bodyHtml = Option.none
    unfold parse_msg
    dsimp only
    cases he : ensure_str (first_attr m.obj jsonHtmlNames) with
    | none => simp [he]
    | some s => simp [he, h2 s he]
  · rfl

/-- C8 witness: the fallback applied to a message carrying only a plain
body (EML side) and to a JSON-side message with a plain body and no HTML
field. -/
theorem C8_body_fallback_witness :
    (emlBody (fun _ => "RTF") [("body", PyAttr.val (.str "plain body"))]).1 = Option.none
    ∧ ((emlBody (fun _ => "RTF") [("body", PyAttr.val (.str "plain body"))]).2
         = safe_str (try_attrs [("body", PyAttr.val (.str "plain body"))] emlPlainNames)
       ∨ (emlBody (fun _ => "RTF") [("body", PyAttr.val (.str "plain body"))]).2
         = (fun (_ : PyVal) => "RTF") (rtfArg [("body", PyAttr.val (.str "plain body"))]))
    ∧ (parse_msg (SrcMsg.mk [("body", PyAttr.val (.str "hello"))]
         (.ok Option.none))).bodyHtml = Option.none
    ∧ (parse_msg (SrcMsg.mk [("body", PyAttr.val (.str "hello"))]
         (.ok Option.none))).bodyText
      = (match ensure_str (first_attr [("body", PyAttr.val (.str "hello"))] jsonTextNames) with
         | some s => s
         | Option.none => "") :=
  C8_body_fallback (fun _ => "RTF") [("body", PyAttr.val (.str "plain body"))]
    (SrcMsg.mk [("body", PyAttr.val (.str "hello"))] (.ok Option.none))
    rfl
    (fun _ h => Option.noConfusion h)

end MsgSpec
